import Mathlib

set_option maxHeartbeats 1000000

/-!
Verification of the natural-language specification of janet's core library
(src/core/corelib.c) against the code.

The repository ships only corelib.c.  The bytecode interpreter (vm.c), the
value representation (janet.h) and the auxiliary libraries are outside src,
so the numeric values of the JOP_* opcodes are unknown; the hand-assembled
instruction sequences of corelib.c are therefore embedded in decoded form,
one constructor per JOP_* opcode, mirroring the C arrays line by line, and
the effect of each opcode is modelled from the spec and from the inline
comments of corelib.c.  The bit-packing macros SSS/SS/SSI/S/SI, which are
in corelib.c, are embedded directly over Nat with explicit mod 2^32.
-/

/-- Janet values, as needed by the core library: nil, booleans, integers,
reals, byte strings and tuples.  The value representation (janet.h) is not
in src; this models the kinds the claims mention. -/
inductive Janet where
  | nil : Janet
  | boolean : Bool → Janet
  | int : Int → Janet
  | real : ℚ → Janet
  | string : List Char → Janet
  | tuple : List Janet → Janet

/-- Decoded bytecode instructions: exactly the JOP_* opcodes used by the
hand-assembled sequences of corelib.c (templatize_varop,
templatize_comparator, make_apply).  `binop` stands for the templatized
binary opcode parameter `op`. -/
inductive Instr where
  | lengthOf (dst src : Nat) : Instr
  | equalsImmediate (dst src : Nat) (imm : Int) : Instr
  | equalsInteger (dst a b : Nat) : Instr
  | lessThanImmediate (dst src : Nat) (imm : Int) : Instr
  | addImmediate (dst src : Nat) (imm : Int) : Instr
  | loadInteger (dst : Nat) (imm : Int) : Instr
  | loadTrue (dst : Nat) : Instr
  | loadFalse (dst : Nat) : Instr
  | moveNear (dst src : Nat) : Instr
  | getIndex (dst src : Nat) (idx : Nat) : Instr
  | getRegIdx (dst src idxreg : Nat) : Instr
  | jumpIf (cond : Nat) (off : Int) : Instr
  | jumpIfNot (cond : Nat) (off : Int) : Instr
  | jump (off : Int) : Instr
  | binop (dst a b : Nat) : Instr
  | push (src : Nat) : Instr
  | pushArray (src : Nat) : Instr
  | tailcall (fnreg : Nat) : Instr
  | ret (src : Nat) : Instr

/-- The six register slots used by every assembled function in corelib.c
(all three templates request slotcount 6). -/
structure Regs where
  r0 : Janet
  r1 : Janet
  r2 : Janet
  r3 : Janet
  r4 : Janet
  r5 : Janet

def Regs.get : Regs → Nat → Janet
  | r, 0 => r.r0
  | r, 1 => r.r1
  | r, 2 => r.r2
  | r, 3 => r.r3
  | r, 4 => r.r4
  | r, 5 => r.r5
  | _, _ => .nil

def Regs.set : Regs → Nat → Janet → Regs
  | r, 0, v => { r with r0 := v }
  | r, 1, v => { r with r1 := v }
  | r, 2, v => { r with r2 := v }
  | r, 3, v => { r with r3 := v }
  | r, 4, v => { r with r4 := v }
  | r, 5, v => { r with r5 := v }
  | r, _, _ => r

/-- Machine state: registers, program counter, the stack of pushed
pending-call arguments, and a log recording every application of the
templatized binary opcode (to make evaluation order and short-circuiting
observable). -/
structure VM where
  regs : Regs
  pc : Nat
  stack : List Janet
  log : List (Janet × Janet)

/-- How an assembled function finishes: a returned value, a tail call
(target and the pushed argument list), or a fault (never reached on the
executions the claims describe). -/
inductive Outcome where
  | value : Janet → Outcome
  | tailcall : Janet → List Janet → Outcome
  | fault : Outcome

/-- Modelled from the spec: janet truthiness as used by conditional jumps
(nil and false are falsey, everything else truthy). -/
def truthy : Janet → Bool
  | .nil => false
  | .boolean b => b
  | _ => true

def VM.goto (vm : VM) (off : Int) : VM :=
  { vm with pc := ((vm.pc : Int) + off).toNat }

/-- Modelled from the spec: one step of the bytecode interpreter (vm.c is
not in src).  The effect of each opcode follows the spec's description of
the templating engine and the inline comments of corelib.c; `op`
interprets the templatized binary opcode, and every application of it is
appended to the log. -/
def vmStep (op : Janet → Janet → Janet) (prog : List Instr) (vm : VM) :
    Sum VM (Outcome × List (Janet × Janet)) :=
  match prog.get? vm.pc with
  | none => Sum.inr (.fault, vm.log)
  | some instr =>
    match instr with
    | .lengthOf d a =>
      let v : Janet := match vm.regs.get a with
        | .tuple l => .int l.length
        | _ => .nil
      Sum.inl { vm with regs := vm.regs.set d v, pc := vm.pc + 1 }
    | .equalsImmediate d a imm =>
      let v : Janet := match vm.regs.get a with
        | .int x => .boolean (decide (x = imm))
        | _ => .boolean false
      Sum.inl { vm with regs := vm.regs.set d v, pc := vm.pc + 1 }
    | .equalsInteger d a b =>
      let v : Janet := match vm.regs.get a, vm.regs.get b with
        | .int x, .int y => .boolean (decide (x = y))
        | _, _ => .boolean false
      Sum.inl { vm with regs := vm.regs.set d v, pc := vm.pc + 1 }
    | .lessThanImmediate d a imm =>
      let v : Janet := match vm.regs.get a with
        | .int x => .boolean (decide (x < imm))
        | _ => .boolean false
      Sum.inl { vm with regs := vm.regs.set d v, pc := vm.pc + 1 }
    | .addImmediate d a imm =>
      let v : Janet := match vm.regs.get a with
        | .int x => .int (x + imm)
        | _ => .nil
      Sum.inl { vm with regs := vm.regs.set d v, pc := vm.pc + 1 }
    | .loadInteger d imm =>
      Sum.inl { vm with regs := vm.regs.set d (.int imm), pc := vm.pc + 1 }
    | .loadTrue d =>
      Sum.inl { vm with regs := vm.regs.set d (.boolean true), pc := vm.pc + 1 }
    | .loadFalse d =>
      Sum.inl { vm with regs := vm.regs.set d (.boolean false), pc := vm.pc + 1 }
    | .moveNear d a =>
      Sum.inl { vm with regs := vm.regs.set d (vm.regs.get a), pc := vm.pc + 1 }
    | .getIndex d a idx =>
      let v : Janet := match vm.regs.get a with
        | .tuple l => l.getD idx .nil
        | _ => .nil
      Sum.inl { vm with regs := vm.regs.set d v, pc := vm.pc + 1 }
    | .getRegIdx d a ib =>
      let v : Janet := match vm.regs.get a, vm.regs.get ib with
        | .tuple l, .int x => l.getD x.toNat .nil
        | _, _ => .nil
      Sum.inl { vm with regs := vm.regs.set d v, pc := vm.pc + 1 }
    | .jumpIf c off =>
      if truthy (vm.regs.get c) then Sum.inl (vm.goto off)
      else Sum.inl { vm with pc := vm.pc + 1 }
    | .jumpIfNot c off =>
      if truthy (vm.regs.get c) then Sum.inl { vm with pc := vm.pc + 1 }
      else Sum.inl (vm.goto off)
    | .jump off => Sum.inl (vm.goto off)
    | .binop d a b =>
      Sum.inl { vm with
        regs := vm.regs.set d (op (vm.regs.get a) (vm.regs.get b)),
        pc := vm.pc + 1,
        log := vm.log ++ [(vm.regs.get a, vm.regs.get b)] }
    | .push a =>
      Sum.inl { vm with stack := vm.stack ++ [vm.regs.get a], pc := vm.pc + 1 }
    | .pushArray a =>
      match vm.regs.get a with
      | .tuple l => Sum.inl { vm with stack := vm.stack ++ l, pc := vm.pc + 1 }
      | _ => Sum.inr (.fault, vm.log)
    | .tailcall a => Sum.inr (.tailcall (vm.regs.get a) vm.stack, vm.log)
    | .ret a => Sum.inr (.value (vm.regs.get a), vm.log)

/-- Fuelled execution of an instruction sequence; `none` means the fuel was
exhausted before the function finished. -/
def vmRun (op : Janet → Janet → Janet) (prog : List Instr) :
    Nat → VM → Option (Outcome × List (Janet × Janet))
  | 0, _ => none
  | fuel + 1, vm =>
    match vmStep op prog vm with
    | Sum.inr r => some r
    | Sum.inl vm' => vmRun op prog fuel vm'

/-- The assembled function, started in `vm`, terminates with outcome and
opcode log `r`. -/
def Runs (op : Janet → Janet → Janet) (prog : List Instr) (vm : VM)
    (r : Outcome × List (Janet × Janet)) : Prop :=
  ∃ fuel, vmRun op prog fuel vm = some r

/-- Entry state of a variadic assembled function: the VM collects all
arguments into a tuple placed in register 0 (per the register comments in
templatize_varop and templatize_comparator). -/
def entryState (args : List Janet) : VM :=
  ⟨⟨.tuple args, .nil, .nil, .nil, .nil, .nil⟩, 0, [], []⟩

/-- Entry state of apply: fixed arity 1 plus varargs, so register 0 holds
the function and register 1 the tuple of remaining arguments (per the
register comments in make_apply). -/
def applyState (f : Janet) (args : List Janet) : VM :=
  ⟨⟨f, .tuple args, .nil, .nil, .nil, .nil⟩, 0, [], []⟩

/-- The instruction sequence emitted by templatize_varop
(corelib.c lines 466-498), decoded; mirrors varop_asm word for word. -/
def varop_asm (nullary unary : Int) : List Instr :=
  [ .lengthOf 1 0,
    .equalsImmediate 2 1 0,
    .jumpIfNot 2 3,
    .loadInteger 3 nullary,
    .ret 3,
    .equalsImmediate 2 1 1,
    .jumpIfNot 2 5,
    .loadInteger 3 unary,
    .getIndex 4 0 0,
    .binop 3 3 4,
    .ret 3,
    .getIndex 3 0 0,
    .loadInteger 5 1,
    .getRegIdx 4 0 5,
    .binop 3 3 4,
    .addImmediate 5 5 1,
    .equalsInteger 2 5 1,
    .jumpIfNot 2 (-4),
    .ret 3 ]

/-- The instruction sequence emitted by templatize_comparator
(corelib.c lines 524-549), decoded; mirrors comparator_asm word for word,
including the invert-conditional LOAD_FALSE/LOAD_TRUE selection. -/
def comparator_asm (invert : Bool) : List Instr :=
  [ .lengthOf 1 0,
    .lessThanImmediate 2 1 2,
    .jumpIf 2 10,
    .getIndex 3 0 0,
    .loadInteger 5 1,
    .getRegIdx 4 0 5,
    .binop 2 3 4,
    .jumpIfNot 2 7,
    .addImmediate 5 5 1,
    .moveNear 3 4,
    .equalsInteger 2 5 1,
    .jumpIfNot 2 (-6),
    if invert then .loadFalse 3 else .loadTrue 3,
    .ret 3,
    if invert then .loadTrue 3 else .loadFalse 3,
    .ret 3 ]

/-- The instruction sequence emitted by make_apply
(corelib.c lines 569-590), decoded; mirrors apply_asm word for word. -/
def apply_asm : List Instr :=
  [ .lengthOf 2 1,
    .equalsImmediate 3 2 0,
    .jumpIf 3 9,
    .loadInteger 4 0,
    .getRegIdx 5 1 4,
    .addImmediate 4 4 1,
    .equalsInteger 3 4 2,
    .jumpIf 3 3,
    .push 5,
    .jump (-5),
    .pushArray 5,
    .tailcall 0 ]

/-- The (name, nullary, unary) triples with which janet_core_env registers
the variadic reducers (corelib.c lines 645-654). -/
def varopRegistrations : List (String × Int × Int) :=
  [ ("+", 0, 0), ("-", 0, 0), ("*", 1, 1), ("/", 1, 1), ("&", -1, -1),
    ("|", 0, 0), ("^", 0, 0), ("<<", 1, 1), (">>", 1, 1), (">>>", 1, 1) ]

/-- The (name, invert) pairs with which janet_core_env registers the
chained comparators (corelib.c lines 657-668). -/
def comparatorRegistrations : List (String × Bool) :=
  [ ("order>", false), ("order<", false), ("order>=", true),
    ("order<=", true), ("=", false), ("not=", true), (">", false),
    ("<", false), (">=", false), ("<=", false), ("==", false),
    ("not==", true) ]

/-- Whether every adjacent pair of `prev :: l` satisfies `cmp`. -/
def chainHolds (cmp : Janet → Janet → Bool) : Janet → List Janet → Bool
  | _, [] => true
  | prev, x :: xs => cmp prev x && chainHolds cmp x xs

/-- The pairwise comparisons a short-circuiting chain actually evaluates:
each adjacent pair in order, up to and including the first failing one. -/
def chainTrace (cmp : Janet → Janet → Bool) : Janet → List Janet → List (Janet × Janet)
  | _, [] => []
  | prev, x :: xs =>
    if cmp prev x then (prev, x) :: chainTrace cmp x xs else [(prev, x)]

/-- The opcode applications a left fold evaluates: (accumulator, operand)
pairs in call order. -/
def foldTrace (op : Janet → Janet → Janet) : Janet → List Janet → List (Janet × Janet)
  | _, [] => []
  | acc, x :: xs => (acc, x) :: foldTrace op (op acc x) xs

/-- Lift a boolean comparison to the binary-opcode interpretation used by
the comparator template (the opcode writes a boolean into a register). -/
def cmpSem (cmp : Janet → Janet → Bool) : Janet → Janet → Janet :=
  fun a b => .boolean (cmp a b)

/-- Modelled from the spec: the numeric-addition opcode JOP_ADD on
integers (vm.c is not in src). -/
def addSem : Janet → Janet → Janet
  | .int a, .int b => .int (a + b)
  | _, _ => .nil

/-- Modelled from the spec: the numeric-multiplication opcode JOP_MULTIPLY
on integers (vm.c is not in src). -/
def mulSem : Janet → Janet → Janet
  | .int a, .int b => .int (a * b)
  | _, _ => .nil

/-- Modelled from the spec: the numeric-subtraction opcode JOP_SUBTRACT on
integers (vm.c is not in src). -/
def subSem : Janet → Janet → Janet
  | .int a, .int b => .int (a - b)
  | _, _ => .nil

/-- Modelled from the spec: the numeric less-than comparison opcode
JOP_NUMERIC_LESS_THAN on integers (vm.c is not in src). -/
def numLt : Janet → Janet → Bool
  | .int a, .int b => decide (a < b)
  | _, _ => false

/-- The C macro SSS from corelib.c line 444: pack an opcode and three
operands into one 32-bit instruction word by left shifts and bitwise or
(uint32 arithmetic, hence the explicit mod 2^32). -/
def SSS (op a b c : Nat) : Nat :=
  (op ||| (a <<< 8) ||| (b <<< 16) ||| (c <<< 24)) % 2 ^ 32

/-- The C macro SS from corelib.c line 445. -/
def SS (op a b : Nat) : Nat := (op ||| (a <<< 8) ||| (b <<< 16)) % 2 ^ 32

/-- The C cast (uint32_t)(I) applied to a signed immediate: two's
complement reduction mod 2^32. -/
def toU32 (i : Int) : Nat := (i % 2 ^ 32).toNat

/-- The C macro SSI from corelib.c line 446: the signed immediate is cast
to uint32 and shifted into the top byte (bits above the byte are shifted
out of the 32-bit word). -/
def SSI (op a b : Nat) (i : Int) : Nat :=
  (op ||| (a <<< 8) ||| (b <<< 16) ||| ((toU32 i <<< 24) % 2 ^ 32)) % 2 ^ 32

/-- The C macro S from corelib.c line 447. -/
def S (op a : Nat) : Nat := (op ||| (a <<< 8)) % 2 ^ 32

/-- The C macro SI from corelib.c line 448: the signed immediate is cast
to uint32 and shifted into the top 16 bits. -/
def SI (op a : Nat) (i : Int) : Nat :=
  (op ||| (a <<< 8) ||| ((toU32 i <<< 16) % 2 ^ 32)) % 2 ^ 32

/-- Modelled from the spec: the interpreter decodes the opcode field by
masking the low byte (vm.c is not in src; the spec fixes the field layout
as the one the macros pack). -/
def decodeOp (w : Nat) : Nat := w % 2 ^ 8

/-- Modelled from the spec: the first 8-bit register operand, bits 8-15. -/
def decodeA (w : Nat) : Nat := (w >>> 8) % 2 ^ 8

/-- Modelled from the spec: the second 8-bit register operand, bits 16-23. -/
def decodeB (w : Nat) : Nat := (w >>> 16) % 2 ^ 8

/-- Modelled from the spec: the third 8-bit register operand, bits 24-31. -/
def decodeC (w : Nat) : Nat := (w >>> 24) % 2 ^ 8

/-- Reinterpret an 8-bit field as a signed (two's complement) value. -/
def asSigned8 (b : Nat) : Int := if b < 2 ^ 7 then (b : Int) else (b : Int) - 2 ^ 8

/-- Reinterpret a 16-bit field as a signed (two's complement) value. -/
def asSigned16 (x : Nat) : Int := if x < 2 ^ 15 then (x : Int) else (x : Int) - 2 ^ 16

/-- Modelled from the spec: the signed 8-bit immediate of an SSI-form word
(top byte). -/
def decodeImm8 (w : Nat) : Int := asSigned8 (decodeC w)

/-- Modelled from the spec: the signed 16-bit immediate of an SI-form word
(top 16 bits). -/
def decodeImm16 (w : Nat) : Int := asSigned16 ((w >>> 16) % 2 ^ 16)

/-- Decimal digit value of a character, if it is a digit. -/
def digitVal (c : Char) : Option Nat :=
  if '0' ≤ c ∧ c ≤ '9' then some (c.toNat - '0'.toNat) else none

def scanDecimalAux : List Char → Nat → Option Nat
  | [], acc => some acc
  | c :: cs, acc =>
    match digitVal c with
    | some d => scanDecimalAux cs (acc * 10 + d)
    | none => none

/-- A nonempty run of decimal digits, as a number; `none` on anything
else. -/
def scanDecimal : List Char → Option Nat
  | [] => none
  | l => scanDecimalAux l 0

/-- Modelled from the spec: janet_scan_integer (value scanning is not in
src; the spec says only that it follows the language's own
integer-literal grammar and reports malformed input through an error
flag, modelled as `none`).  Decimal integers with an optional sign. -/
def janet_scan_integer : List Char → Option Int
  | '-' :: rest => (scanDecimal rest).map (fun n => -(n : Int))
  | '+' :: rest => (scanDecimal rest).map (fun n => (n : Int))
  | l => (scanDecimal l).map (fun n => (n : Int))

def janet_scan_real_frac (ipart fpart : List Char) : Option ℚ :=
  match scanDecimal ipart, scanDecimal fpart with
  | some ip, some fp => some ((ip : ℚ) + (fp : ℚ) / (10 : ℚ) ^ fpart.length)
  | _, _ => none

def janet_scan_real_unsigned (l : List Char) : Option ℚ :=
  match List.splitOn '.' l with
  | [a] => (scanDecimal a).map (fun n => (n : ℚ))
  | [a, b] => janet_scan_real_frac a b
  | _ => none

/-- Modelled from the spec: janet_scan_real (value scanning is not in src;
same contract as janet_scan_integer).  Decimal numbers with an optional
sign and at most one fraction point. -/
def janet_scan_real : List Char → Option ℚ
  | '-' :: rest => (janet_scan_real_unsigned rest).map (fun q => -q)
  | '+' :: rest => janet_scan_real_unsigned rest
  | l => janet_scan_real_unsigned l

/-- Modelled from the spec: janet_scan_number (value scanning is not in
src) returns an integer if the bytes scan as one, a real if they scan as
one, and nil otherwise. -/
def janet_scan_number (l : List Char) : Janet :=
  match janet_scan_integer l with
  | some n => .int n
  | none =>
    match janet_scan_real l with
    | some q => .real q
    | none => .nil

/-- janet_core_scannumber (corelib.c lines 151-159): fixed arity 1, byte
argument; returns whatever janet_scan_number produced (nil included) as a
normal return, never as a throw. -/
def janet_core_scannumber : List Janet → Except String Janet
  | [.string d] => Except.ok (janet_scan_number d)
  | [_] => Except.error "expected bytes"
  | _ => Except.error "expected 1 argument"

/-- janet_core_scaninteger (corelib.c lines 161-172): fixed arity 1, byte
argument; if the scanner reports an error the function returns nil
normally, otherwise it returns the scanned integer. -/
def janet_core_scaninteger : List Janet → Except String Janet
  | [.string d] =>
    match janet_scan_integer d with
    | none => Except.ok Janet.nil
    | some v => Except.ok (Janet.int v)
  | [_] => Except.error "expected bytes"
  | _ => Except.error "expected 1 argument"

/-- janet_core_scanreal (corelib.c lines 174-186): fixed arity 1, byte
argument; if the scanner reports an error the function returns nil
normally, otherwise it returns the scanned real. -/
def janet_core_scanreal : List Janet → Except String Janet
  | [.string d] =>
    match janet_scan_real d with
    | none => Except.ok Janet.nil
    | some v => Except.ok (Janet.real v)
  | [_] => Except.error "expected bytes"
  | _ => Except.error "expected 1 argument"

/-- Modelled from the spec: janet_table_put (table.c is not in src); a put
binds the key to the value, replacing any earlier binding of an equal key.
The container is modelled by its lookup function, over an arbitrary value
type with decidable equality. -/
def janet_table_put {α : Type} [DecidableEq α] (t : α → Option α) (k v : α) :
    α → Option α :=
  fun q => if q = k then some v else t q

/-- Modelled from the spec: janet_struct_put with janet_struct_end
(struct.c is not in src); per the spec, within one constructor call a
later duplicate key overwrites an earlier one, so lookups in the finished
struct see the final binding. -/
def janet_struct_put {α : Type} [DecidableEq α] (st : α → Option α) (k v : α) :
    α → Option α :=
  fun q => if q = k then some v else st q

/-- Consecutive key-value pairs of a flat argument list, in the order the
loops of janet_core_table and janet_core_struct walk them
(i = 0, 2, 4, ...). -/
def pairsOf {α : Type} : List α → List (α × α)
  | k :: v :: rest => (k, v) :: pairsOf rest
  | _ => []

/-- janet_core_table (corelib.c lines 199-208): an odd argument count
throws "expected even number of arguments"; otherwise every consecutive
key-value pair is put into a fresh table in order. -/
def janet_core_table {α : Type} [DecidableEq α] (args : List α) :
    Except String (α → Option α) :=
  if args.length % 2 = 1 then Except.error "expected even number of arguments"
  else Except.ok
    ((pairsOf args).foldl (fun t kv => janet_table_put t kv.1 kv.2) (fun _ => none))

/-- janet_core_struct (corelib.c lines 210-219): same shape as
janet_core_table, with struct puts into a fresh struct. -/
def janet_core_struct {α : Type} [DecidableEq α] (args : List α) :
    Except String (α → Option α) :=
  if args.length % 2 = 1 then Except.error "expected even number of arguments"
  else Except.ok
    ((pairsOf args).foldl (fun st kv => janet_struct_put st kv.1 kv.2) (fun _ => none))

/-- The value the LAST pair of a key-value list binds a key to (the
spec-side description: later keys overwrite earlier duplicates). -/
def lastBinding {α : Type} [DecidableEq α] : List (α × α) → α → Option α
  | [], _ => none
  | p :: rest, k =>
    match lastBinding rest k with
    | some v => some v
    | none => if k = p.1 then some p.2 else none

/-- Modelled from the spec: the platform dynamic-loading interface
(load-by-path, resolve-symbol-by-name, last-error-message) behind the
load_clib / symbol_clib / error_clib macros of corelib.c lines 31-50. -/
structure DynLoader (L F : Type) where
  load_clib : String → Option L
  symbol_clib : L → String → Option F
  error_clib : String

/-- janet_native (corelib.c lines 52-65): load the unit; if that fails,
the error is the platform's diagnostic; otherwise resolve the fixed entry
symbol _janet_init; if that fails, the error is the fixed message;
otherwise the entry point is returned. -/
def janet_native {L F : Type} (pf : DynLoader L F) (name : String) :
    Except String F :=
  match pf.load_clib name with
  | none => Except.error pf.error_clib
  | some lib =>
    match pf.symbol_clib lib "_janet_init" with
    | none => Except.error "could not find _janet_init symbol"
    | some init => Except.ok init

/-- janet_core_native (corelib.c lines 67-78): fixed arity 1, byte path; a
failed janet_native throws the error value (JANET_THROWV, catchable),
otherwise the entry point is returned. -/
def janet_core_native {L F : Type} (pf : DynLoader L F) :
    List Janet → Except String F
  | [.string p] => janet_native pf (String.mk p)
  | [_] => Except.error "expected string"
  | _ => Except.error "expected 1 argument"

/-- A small concrete loader exercising all three paths of janet_native:
one loadable unit with the entry symbol, one without it, everything else
missing. -/
def sampleLoader : DynLoader Nat Nat :=
  ⟨fun p => if p = "good" then some 0 else if p = "nosym" then some 1 else none,
   fun lib y => if lib = 0 ∧ y = "_janet_init" then some 7 else none,
   "could not load dynamic library"⟩

/-- janet_core_gcsetinterval (corelib.c lines 232-240), with the global
janet_vm_gc_interval passed and returned as explicit state: fixed arity 1,
integer argument; a negative value throws "expected non-negative integer"
and leaves the interval unchanged; otherwise the interval is set and nil
is returned. -/
def janet_core_gcsetinterval (gcInterval : Int) :
    List Janet → Except String Janet × Int
  | [.int v] =>
    if v < 0 then (Except.error "expected non-negative integer", gcInterval)
    else (Except.ok Janet.nil, v)
  | [_] => (Except.error "expected integer", gcInterval)
  | _ => (Except.error "expected 1 argument", gcInterval)

/-- janet_core_gcinterval (corelib.c lines 242-245): fixed arity 0,
returns the stored interval. -/
def janet_core_gcinterval (gcInterval : Int) : List Janet → Except String Janet
  | [] => Except.ok (Janet.int gcInterval)
  | _ => Except.error "expected 0 arguments"

theorem runs_done {op : Janet → Janet → Janet} {prog : List Instr} {vm : VM}
    {r : Outcome × List (Janet × Janet)}
    (h : vmStep op prog vm = Sum.inr r) : Runs op prog vm r :=
  ⟨1, by simp [vmRun, h]⟩

theorem runs_step {op : Janet → Janet → Janet} {prog : List Instr} {vm : VM}
    (vm' : VM) {r : Outcome × List (Janet × Janet)}
    (h : vmStep op prog vm = Sum.inl vm') (h2 : Runs op prog vm' r) :
    Runs op prog vm r := by
  obtain ⟨f, hf⟩ := h2
  exact ⟨f + 1, by simp [vmRun, h, hf]⟩

theorem getElem_of_drop {args l : List Janet} {x : Janet} {i : Nat}
    (h : args.drop i = x :: l) : args[i]? = some x := by
  have := congrArg (fun t => t[0]?) h
  simpa [List.getElem?_drop] using this

theorem varop_loop (op : Janet → Janet → Janet) (nl u : Int) (args : List Janet) :
    ∀ (xs : List Janet) (x : Janet) (i : Nat) (acc r2 r4 : Janet)
      (lg : List (Janet × Janet)),
      args.drop i = x :: xs → i + xs.length + 1 = args.length →
      Runs op (varop_asm nl u)
        ⟨⟨.tuple args, .int (args.length : Int), r2, acc, r4, .int (i : Int)⟩, 13, [], lg⟩
        (.value ((x :: xs).foldl op acc), lg ++ foldTrace op acc (x :: xs)) := by
  intro xs
  induction xs with
  | nil =>
    intro x i acc r2 r4 lg hdrop hlen
    simp only [List.length_nil] at hlen
    have hx := getElem_of_drop hdrop
    refine runs_step ⟨⟨.tuple args, .int (args.length : Int), r2, acc, x, .int (i : Int)⟩, 14, [], lg⟩ ?_ ?_
    · simp [vmStep, varop_asm, Regs.get, Regs.set, hx]
    refine runs_step ⟨⟨.tuple args, .int (args.length : Int), r2, op acc x, x, .int (i : Int)⟩, 15, [], lg ++ [(acc, x)]⟩ rfl ?_
    refine runs_step ⟨⟨.tuple args, .int (args.length : Int), r2, op acc x, x, .int ((i : Int) + 1)⟩, 16, [], lg ++ [(acc, x)]⟩ rfl ?_
    refine runs_step ⟨⟨.tuple args, .int (args.length : Int), .boolean true, op acc x, x, .int ((i : Int) + 1)⟩, 17, [], lg ++ [(acc, x)]⟩ ?_ ?_
    · simp [vmStep, varop_asm, Regs.get, Regs.set]
      omega
    refine runs_step ⟨⟨.tuple args, .int (args.length : Int), .boolean true, op acc x, x, .int ((i : Int) + 1)⟩, 18, [], lg ++ [(acc, x)]⟩ rfl ?_
    refine runs_done ?_
    simp [vmStep, varop_asm, Regs.get, foldTrace]
  | cons y ys ih =>
    intro x i acc r2 r4 lg hdrop hlen
    simp only [List.length_cons] at hlen
    have hx := getElem_of_drop hdrop
    refine runs_step ⟨⟨.tuple args, .int (args.length : Int), r2, acc, x, .int (i : Int)⟩, 14, [], lg⟩ ?_ ?_
    · simp [vmStep, varop_asm, Regs.get, Regs.set, hx]
    refine runs_step ⟨⟨.tuple args, .int (args.length : Int), r2, op acc x, x, .int (i : Int)⟩, 15, [], lg ++ [(acc, x)]⟩ rfl ?_
    refine runs_step ⟨⟨.tuple args, .int (args.length : Int), r2, op acc x, x, .int ((i + 1 : Nat) : Int)⟩, 16, [], lg ++ [(acc, x)]⟩ ?_ ?_
    · simp [vmStep, varop_asm, Regs.get, Regs.set]
    refine runs_step ⟨⟨.tuple args, .int (args.length : Int), .boolean false, op acc x, x, .int ((i + 1 : Nat) : Int)⟩, 17, [], lg ++ [(acc, x)]⟩ ?_ ?_
    · simp [vmStep, varop_asm, Regs.get, Regs.set]
      omega
    refine runs_step ⟨⟨.tuple args, .int (args.length : Int), .boolean false, op acc x, x, .int ((i + 1 : Nat) : Int)⟩, 13, [], lg ++ [(acc, x)]⟩ rfl ?_
    have hdrop' : args.drop (i + 1) = y :: ys := by
      have := congrArg (fun t => t.drop 1) hdrop
      simpa [List.drop_drop, Nat.add_comm] using this
    have hres := ih y (i + 1) (op acc x) (.boolean false) x (lg ++ [(acc, x)]) hdrop' (by omega)
    simpa [foldTrace] using hres

theorem comparator_loop (cmp : Janet → Janet → Bool) (invert : Bool) (args : List Janet) :
    ∀ (xs : List Janet) (x prev : Janet) (i : Nat) (r2 r4 : Janet)
      (lg : List (Janet × Janet)),
      args.drop i = x :: xs → i + xs.length + 1 = args.length →
      Runs (cmpSem cmp) (comparator_asm invert)
        ⟨⟨.tuple args, .int (args.length : Int), r2, prev, r4, .int (i : Int)⟩, 5, [], lg⟩
        (.value (.boolean (xor (chainHolds cmp prev (x :: xs)) invert)),
         lg ++ chainTrace cmp prev (x :: xs)) := by
  intro xs
  induction xs with
  | nil =>
    intro x prev i r2 r4 lg hdrop hlen
    simp only [List.length_nil] at hlen
    have hx := getElem_of_drop hdrop
    refine runs_step ⟨⟨.tuple args, .int (args.length : Int), r2, prev, x, .int (i : Int)⟩, 6, [], lg⟩ ?_ ?_
    · simp [vmStep, comparator_asm, Regs.get, Regs.set, hx]
    refine runs_step ⟨⟨.tuple args, .int (args.length : Int), .boolean (cmp prev x), prev, x, .int (i : Int)⟩, 7, [], lg ++ [(prev, x)]⟩ rfl ?_
    cases hc : cmp prev x with
    | false =>
      refine runs_step ⟨⟨.tuple args, .int (args.length : Int), .boolean false, prev, x, .int (i : Int)⟩, 14, [], lg ++ [(prev, x)]⟩ ?_ ?_
      · simp [vmStep, comparator_asm, Regs.get, truthy, hc, VM.goto]
      refine runs_step ⟨⟨.tuple args, .int (args.length : Int), .boolean false, .boolean invert, x, .int (i : Int)⟩, 15, [], lg ++ [(prev, x)]⟩ ?_ ?_
      · cases invert <;> rfl
      refine runs_done ?_
      simp [vmStep, comparator_asm, Regs.get, chainHolds, chainTrace, hc]
    | true =>
      refine runs_step ⟨⟨.tuple args, .int (args.length : Int), .boolean true, prev, x, .int (i : Int)⟩, 8, [], lg ++ [(prev, x)]⟩ ?_ ?_
      · simp [vmStep, comparator_asm, Regs.get, truthy, hc, VM.goto]
      refine runs_step ⟨⟨.tuple args, .int (args.length : Int), .boolean true, prev, x, .int ((i : Int) + 1)⟩, 9, [], lg ++ [(prev, x)]⟩ rfl ?_
      refine runs_step ⟨⟨.tuple args, .int (args.length : Int), .boolean true, x, x, .int ((i : Int) + 1)⟩, 10, [], lg ++ [(prev, x)]⟩ rfl ?_
      refine runs_step ⟨⟨.tuple args, .int (args.length : Int), .boolean true, x, x, .int ((i : Int) + 1)⟩, 11, [], lg ++ [(prev, x)]⟩ ?_ ?_
      · simp [vmStep, comparator_asm, Regs.get, Regs.set]
        omega
      refine runs_step ⟨⟨.tuple args, .int (args.length : Int), .boolean true, x, x, .int ((i : Int) + 1)⟩, 12, [], lg ++ [(prev, x)]⟩ rfl ?_
      refine runs_step ⟨⟨.tuple args, .int (args.length : Int), .boolean true, .boolean !invert, x, .int ((i : Int) + 1)⟩, 13, [], lg ++ [(prev, x)]⟩ ?_ ?_
      · cases invert <;> rfl
      refine runs_done ?_
      simp [vmStep, comparator_asm, Regs.get, chainHolds, chainTrace, hc]
  | cons y ys ih =>
    intro x prev i r2 r4 lg hdrop hlen
    simp only [List.length_cons] at hlen
    have hx := getElem_of_drop hdrop
    refine runs_step ⟨⟨.tuple args, .int (args.length : Int), r2, prev, x, .int (i : Int)⟩, 6, [], lg⟩ ?_ ?_
    · simp [vmStep, comparator_asm, Regs.get, Regs.set, hx]
    refine runs_step ⟨⟨.tuple args, .int (args.length : Int), .boolean (cmp prev x), prev, x, .int (i : Int)⟩, 7, [], lg ++ [(prev, x)]⟩ rfl ?_
    cases hc : cmp prev x with
    | false =>
      refine runs_step ⟨⟨.tuple args, .int (args.length : Int), .boolean false, prev, x, .int (i : Int)⟩, 14, [], lg ++ [(prev, x)]⟩ ?_ ?_
      · simp [vmStep, comparator_asm, Regs.get, truthy, hc, VM.goto]
      refine runs_step ⟨⟨.tuple args, .int (args.length : Int), .boolean false, .boolean invert, x, .int (i : Int)⟩, 15, [], lg ++ [(prev, x)]⟩ ?_ ?_
      · cases invert <;> rfl
      refine runs_done ?_
      simp [vmStep, comparator_asm, Regs.get, chainHolds, chainTrace, hc]
    | true =>
      refine runs_step ⟨⟨.tuple args, .int (args.length : Int), .boolean true, prev, x, .int (i : Int)⟩, 8, [], lg ++ [(prev, x)]⟩ ?_ ?_
      · simp [vmStep, comparator_asm, Regs.get, truthy, hc, VM.goto]
      refine runs_step ⟨⟨.tuple args, .int (args.length : Int), .boolean true, prev, x, .int ((i + 1 : Nat) : Int)⟩, 9, [], lg ++ [(prev, x)]⟩ ?_ ?_
      · simp [vmStep, comparator_asm, Regs.get, Regs.set]
      refine runs_step ⟨⟨.tuple args, .int (args.length : Int), .boolean true, x, x, .int ((i + 1 : Nat) : Int)⟩, 10, [], lg ++ [(prev, x)]⟩ rfl ?_
      refine runs_step ⟨⟨.tuple args, .int (args.length : Int), .boolean false, x, x, .int ((i + 1 : Nat) : Int)⟩, 11, [], lg ++ [(prev, x)]⟩ ?_ ?_
      · simp [vmStep, comparator_asm, Regs.get, Regs.set]
        omega
      refine runs_step ⟨⟨.tuple args, .int (args.length : Int), .boolean false, x, x, .int ((i + 1 : Nat) : Int)⟩, 5, [], lg ++ [(prev, x)]⟩ rfl ?_
      have hdrop' : args.drop (i + 1) = y :: ys := by
        have := congrArg (fun t => t.drop 1) hdrop
        simpa [List.drop_drop, Nat.add_comm] using this
      have hres := ih y x (i + 1) (.boolean false) x (lg ++ [(prev, x)]) hdrop' (by omega)
      simpa [chainHolds, chainTrace, hc] using hres

theorem apply_loop (op : Janet → Janet → Janet) (f : Janet) (args : List Janet) :
    ∀ (mid : List Janet) (t : List Janet) (i : Nat) (acc : List Janet)
      (r3 r5 : Janet),
      args.drop i = mid ++ [.tuple t] → i + mid.length + 1 = args.length →
      Runs op apply_asm
        ⟨⟨f, .tuple args, .int (args.length : Int), r3, .int (i : Int), r5⟩, 4, acc, []⟩
        (.tailcall f (acc ++ mid ++ t), []) := by
  intro mid
  induction mid with
  | nil =>
    intro t i acc r3 r5 hdrop hlen
    simp only [List.length_nil] at hlen
    have hx : args[i]? = some (.tuple t) := getElem_of_drop (by simpa using hdrop)
    refine runs_step ⟨⟨f, .tuple args, .int (args.length : Int), r3, .int (i : Int), .tuple t⟩, 5, acc, []⟩ ?_ ?_
    · simp [vmStep, apply_asm, Regs.get, Regs.set, hx]
    refine runs_step ⟨⟨f, .tuple args, .int (args.length : Int), r3, .int ((i : Int) + 1), .tuple t⟩, 6, acc, []⟩ rfl ?_
    refine runs_step ⟨⟨f, .tuple args, .int (args.length : Int), .boolean true, .int ((i : Int) + 1), .tuple t⟩, 7, acc, []⟩ ?_ ?_
    · simp [vmStep, apply_asm, Regs.get, Regs.set]
      omega
    refine runs_step ⟨⟨f, .tuple args, .int (args.length : Int), .boolean true, .int ((i : Int) + 1), .tuple t⟩, 10, acc, []⟩ ?_ ?_
    · simp [vmStep, apply_asm, Regs.get, truthy, VM.goto]
    refine runs_step ⟨⟨f, .tuple args, .int (args.length : Int), .boolean true, .int ((i : Int) + 1), .tuple t⟩, 11, acc ++ t, []⟩ rfl ?_
    refine runs_done ?_
    simp [vmStep, apply_asm, Regs.get]
  | cons y mid' ih =>
    intro t i acc r3 r5 hdrop hlen
    simp only [List.length_cons] at hlen
    have hx : args[i]? = some y := getElem_of_drop (by simpa using hdrop)
    refine runs_step ⟨⟨f, .tuple args, .int (args.length : Int), r3, .int (i : Int), y⟩, 5, acc, []⟩ ?_ ?_
    · simp [vmStep, apply_asm, Regs.get, Regs.set, hx]
    refine runs_step ⟨⟨f, .tuple args, .int (args.length : Int), r3, .int ((i + 1 : Nat) : Int), y⟩, 6, acc, []⟩ ?_ ?_
    · simp [vmStep, apply_asm, Regs.get, Regs.set]
    refine runs_step ⟨⟨f, .tuple args, .int (args.length : Int), .boolean false, .int ((i + 1 : Nat) : Int), y⟩, 7, acc, []⟩ ?_ ?_
    · simp [vmStep, apply_asm, Regs.get, Regs.set]
      omega
    refine runs_step ⟨⟨f, .tuple args, .int (args.length : Int), .boolean false, .int ((i + 1 : Nat) : Int), y⟩, 8, acc, []⟩ rfl ?_
    refine runs_step ⟨⟨f, .tuple args, .int (args.length : Int), .boolean false, .int ((i + 1 : Nat) : Int), y⟩, 9, acc ++ [y], []⟩ rfl ?_
    refine runs_step ⟨⟨f, .tuple args, .int (args.length : Int), .boolean false, .int ((i + 1 : Nat) : Int), y⟩, 4, acc ++ [y], []⟩ ?_ ?_
    · simp [vmStep, apply_asm, VM.goto]
    have hdrop' : args.drop (i + 1) = mid' ++ [.tuple t] := by
      have := congrArg (fun l => l.drop 1) hdrop
      simpa [List.drop_drop, Nat.add_comm] using this
    have hres := ih t (i + 1) (acc ++ [y]) (.boolean false) y hdrop' (by omega)
    simpa using hres

theorem vmRun_mono {op : Janet → Janet → Janet} {prog : List Instr}
    {r : Outcome × List (Janet × Janet)} :
    ∀ {f g : Nat} {vm : VM}, vmRun op prog f vm = some r → f ≤ g →
      vmRun op prog g vm = some r := by
  intro f
  induction f with
  | zero => intro g vm h; simp [vmRun] at h
  | succ f ih =>
    intro g vm h hle
    obtain ⟨g', rfl⟩ : ∃ g', g = g' + 1 := ⟨g - 1, by omega⟩
    rw [vmRun] at h ⊢
    cases hs : vmStep op prog vm with
    | inr r' => rw [hs] at h; exact h
    | inl vm' => rw [hs] at h; exact ih h (by omega)

theorem runs_det {op : Janet → Janet → Janet} {prog : List Instr} {vm : VM}
    {r1 r2 : Outcome × List (Janet × Janet)}
    (h1 : Runs op prog vm r1) (h2 : Runs op prog vm r2) : r1 = r2 := by
  obtain ⟨f1, hf1⟩ := h1
  obtain ⟨f2, hf2⟩ := h2
  rcases Nat.le_total f1 f2 with h | h
  · have := vmRun_mono hf1 h
    rw [this] at hf2
    exact (Option.some.injEq _ _ ▸ hf2).symm ▸ rfl
  · have := vmRun_mono hf2 h
    rw [this] at hf1
    cases hf1
    rfl

/-- C2 -/
theorem varop_spec (op : Janet → Janet → Janet) (nl u : Int) :
    Runs op (varop_asm nl u) (entryState []) (.value (.int nl), []) ∧
    (∀ x : Janet, Runs op (varop_asm nl u) (entryState [x])
      (.value (op (.int u) x), [(.int u, x)])) ∧
    (∀ (a b : Janet) (rest : List Janet),
      Runs op (varop_asm nl u) (entryState (a :: b :: rest))
        (.value ((b :: rest).foldl op a), foldTrace op a (b :: rest))) := by
  refine ⟨⟨5, rfl⟩, fun x => ⟨9, rfl⟩, fun a b rest => ?_⟩
  refine runs_step ⟨⟨.tuple (a :: b :: rest), .int ((a :: b :: rest).length : Int), .nil, .nil, .nil, .nil⟩, 1, [], []⟩ rfl ?_
  refine runs_step ⟨⟨.tuple (a :: b :: rest), .int ((a :: b :: rest).length : Int), .boolean false, .nil, .nil, .nil⟩, 2, [], []⟩ rfl ?_
  refine runs_step ⟨⟨.tuple (a :: b :: rest), .int ((a :: b :: rest).length : Int), .boolean false, .nil, .nil, .nil⟩, 5, [], []⟩ rfl ?_
  refine runs_step ⟨⟨.tuple (a :: b :: rest), .int ((a :: b :: rest).length : Int), .boolean false, .nil, .nil, .nil⟩, 6, [], []⟩ rfl ?_
  refine runs_step ⟨⟨.tuple (a :: b :: rest), .int ((a :: b :: rest).length : Int), .boolean false, .nil, .nil, .nil⟩, 11, [], []⟩ rfl ?_
  refine runs_step ⟨⟨.tuple (a :: b :: rest), .int ((a :: b :: rest).length : Int), .boolean false, a, .nil, .nil⟩, 12, [], []⟩ rfl ?_
  refine runs_step ⟨⟨.tuple (a :: b :: rest), .int ((a :: b :: rest).length : Int), .boolean false, a, .nil, .int ((1 : Nat) : Int)⟩, 13, [], []⟩ rfl ?_
  have h := varop_loop op nl u (a :: b :: rest) rest b 1 a (.boolean false) .nil [] rfl
    (by simp only [List.length_cons]; omega)
  simpa using h

/-- C1 amended -/
theorem comparator_spec (cmp : Janet → Janet → Bool) (invert : Bool) :
    Runs (cmpSem cmp) (comparator_asm invert) (entryState [])
      (.value (.boolean !invert), []) ∧
    (∀ x : Janet, Runs (cmpSem cmp) (comparator_asm invert) (entryState [x])
      (.value (.boolean !invert), [])) ∧
    (∀ (a b : Janet) (rest : List Janet),
      Runs (cmpSem cmp) (comparator_asm invert) (entryState (a :: b :: rest))
        (.value (.boolean (xor (chainHolds cmp a (b :: rest)) invert)),
         chainTrace cmp a (b :: rest))) := by
  refine ⟨?_, ?_, fun a b rest => ?_⟩
  · cases invert
    · exact ⟨5, rfl⟩
    · exact ⟨5, rfl⟩
  · intro x
    cases invert
    · exact ⟨5, rfl⟩
    · exact ⟨5, rfl⟩
  refine runs_step ⟨⟨.tuple (a :: b :: rest), .int ((a :: b :: rest).length : Int), .nil, .nil, .nil, .nil⟩, 1, [], []⟩ rfl ?_
  refine runs_step ⟨⟨.tuple (a :: b :: rest), .int ((a :: b :: rest).length : Int), .boolean false, .nil, .nil, .nil⟩, 2, [], []⟩ ?_ ?_
  · simp [vmStep, comparator_asm, Regs.get, Regs.set]
    omega
  refine runs_step ⟨⟨.tuple (a :: b :: rest), .int ((a :: b :: rest).length : Int), .boolean false, .nil, .nil, .nil⟩, 3, [], []⟩ rfl ?_
  refine runs_step ⟨⟨.tuple (a :: b :: rest), .int ((a :: b :: rest).length : Int), .boolean false, a, .nil, .nil⟩, 4, [], []⟩ rfl ?_
  refine runs_step ⟨⟨.tuple (a :: b :: rest), .int ((a :: b :: rest).length : Int), .boolean false, a, .nil, .int ((1 : Nat) : Int)⟩, 5, [], []⟩ rfl ?_
  have h := comparator_loop cmp invert (a :: b :: rest) rest b a 1 (.boolean false) .nil [] rfl
    (by simp only [List.length_cons]; omega)
  simpa using h

/-- C1 counterexample -/
theorem comparator_invert_few_args_cx :
    ("order>=", true) ∈ comparatorRegistrations ∧
    Runs (cmpSem numLt) (comparator_asm true) (entryState [.int 0])
      (.value (.boolean false), []) ∧
    ¬ Runs (cmpSem numLt) (comparator_asm true) (entryState [.int 0])
      (.value (.boolean true), []) := by
  refine ⟨by decide, ⟨5, rfl⟩, fun h => ?_⟩
  have h2 : Runs (cmpSem numLt) (comparator_asm true) (entryState [.int 0])
      (.value (.boolean false), []) := ⟨5, rfl⟩
  have h3 := runs_det h h2
  simp at h3

/-- C4 -/
theorem apply_spec (op : Janet → Janet → Janet) (f : Janet) :
    Runs op apply_asm (applyState f []) (.tailcall f [], []) ∧
    (∀ (pre : List Janet) (t : List Janet),
      Runs op apply_asm (applyState f (pre ++ [.tuple t]))
        (.tailcall f (pre ++ t), [])) ∧
    Runs op apply_asm (applyState f [.int 1, .int 2, .tuple [.int 3, .int 4]])
      (.tailcall f [.int 1, .int 2, .int 3, .int 4], []) := by
  refine ⟨⟨4, rfl⟩, fun pre t => ?_, ⟨40, rfl⟩⟩
  refine runs_step ⟨⟨f, .tuple (pre ++ [Janet.tuple t]), .int ((pre ++ [Janet.tuple t]).length : Int), .nil, .nil, .nil⟩, 1, [], []⟩ rfl ?_
  refine runs_step ⟨⟨f, .tuple (pre ++ [Janet.tuple t]), .int ((pre ++ [Janet.tuple t]).length : Int), .boolean false, .nil, .nil⟩, 2, [], []⟩ ?_ ?_
  · simp [vmStep, apply_asm, Regs.get, Regs.set]
    omega
  refine runs_step ⟨⟨f, .tuple (pre ++ [Janet.tuple t]), .int ((pre ++ [Janet.tuple t]).length : Int), .boolean false, .nil, .nil⟩, 3, [], []⟩ rfl ?_
  refine runs_step ⟨⟨f, .tuple (pre ++ [Janet.tuple t]), .int ((pre ++ [Janet.tuple t]).length : Int), .boolean false, .int ((0 : Nat) : Int), .nil⟩, 4, [], []⟩ rfl ?_
  have h := apply_loop op f (pre ++ [Janet.tuple t]) pre t 0 [] (.boolean false) .nil rfl
    (by simp)
  simpa using h

/-- C10 -/
theorem varop_unary_sub_div :
    (("-", (0 : Int), (0 : Int)) ∈ varopRegistrations ∧
     ("/", (1 : Int), (1 : Int)) ∈ varopRegistrations) ∧
    (∀ (op : Janet → Janet → Janet) (x : Janet),
      Runs op (varop_asm 0 0) (entryState [x])
        (.value (op (.int 0) x), [(.int 0, x)]) ∧
      Runs op (varop_asm 1 1) (entryState [x])
        (.value (op (.int 1) x), [(.int 1, x)])) ∧
    (∀ a : Int, Runs subSem (varop_asm 0 0) (entryState [.int a])
      (.value (.int (0 - a)), [(.int 0, .int a)])) := by
  exact ⟨⟨by decide, by decide⟩, fun op x => ⟨⟨9, rfl⟩, ⟨9, rfl⟩⟩, fun a => ⟨9, rfl⟩⟩

/-- C3 -/
theorem varop_identities :
    (("+", (0 : Int), (0 : Int)) ∈ varopRegistrations ∧
     ("*", (1 : Int), (1 : Int)) ∈ varopRegistrations ∧
     ("&", (-1 : Int), (-1 : Int)) ∈ varopRegistrations) ∧
    Runs addSem (varop_asm 0 0) (entryState []) (.value (.int 0), []) ∧
    Runs addSem (varop_asm 0 0) (entryState [.int 5])
      (.value (.int 5), [(.int 0, .int 5)]) ∧
    Runs mulSem (varop_asm 1 1) (entryState []) (.value (.int 1), []) ∧
    Runs mulSem (varop_asm 1 1) (entryState [.int 5])
      (.value (.int 5), [(.int 1, .int 5)]) ∧
    (∀ op : Janet → Janet → Janet,
      Runs op (varop_asm (-1) (-1)) (entryState []) (.value (.int (-1)), [])) := by
  exact ⟨by decide, ⟨5, rfl⟩, ⟨9, rfl⟩, ⟨5, rfl⟩, ⟨9, rfl⟩, fun op => ⟨5, rfl⟩⟩

theorem foldl_put_lookup {α : Type} [DecidableEq α] :
    ∀ (ps : List (α × α)) (t : α → Option α) (k : α),
      (ps.foldl (fun t kv => janet_table_put t kv.1 kv.2) t) k =
        match lastBinding ps k with
        | some v => some v
        | none => t k := by
  intro ps
  induction ps with
  | nil => intro t k; simp [lastBinding]
  | cons p rest ih =>
    intro t k
    rw [List.foldl_cons, ih]
    cases h : lastBinding rest k with
    | some v => simp [lastBinding, h]
    | none =>
      simp only [lastBinding, h]
      by_cases hk : k = p.1
      · simp [janet_table_put, hk]
      · simp [janet_table_put, hk]

/-- C5 -/
theorem table_struct_spec {α : Type} [DecidableEq α] (args : List α) :
    (args.length % 2 = 1 →
      janet_core_table args = Except.error "expected even number of arguments" ∧
      janet_core_struct args = Except.error "expected even number of arguments") ∧
    (args.length % 2 = 0 →
      ∃ t st : α → Option α,
        janet_core_table args = Except.ok t ∧
        janet_core_struct args = Except.ok st ∧
        ∀ k, t k = lastBinding (pairsOf args) k ∧
             st k = lastBinding (pairsOf args) k) := by
  constructor
  · intro h
    constructor
    · simp [janet_core_table, h]
    · simp [janet_core_struct, h]
  · intro h
    refine ⟨(pairsOf args).foldl (fun t kv => janet_table_put t kv.1 kv.2) (fun _ => none),
      (pairsOf args).foldl (fun st kv => janet_struct_put st kv.1 kv.2) (fun _ => none),
      ?_, ?_, ?_⟩
    · simp [janet_core_table, h]
    · simp [janet_core_struct, h]
    · intro k
      constructor
      · rw [foldl_put_lookup]
        cases lastBinding (pairsOf args) k <;> rfl
      · have hsame : (fun (st : α → Option α) (kv : α × α) => janet_struct_put st kv.1 kv.2) =
            (fun t kv => janet_table_put t kv.1 kv.2) := rfl
        rw [hsame, foldl_put_lookup]
        cases lastBinding (pairsOf args) k <;> rfl

/-- C5 witness -/
theorem table_struct_spec_witness :
    ((([0] : List Nat).length % 2 = 1) ∧
      janet_core_table ([0] : List Nat) = Except.error "expected even number of arguments" ∧
      janet_core_struct ([0] : List Nat) = Except.error "expected even number of arguments") ∧
    ((([0, 1, 0, 2] : List Nat).length % 2 = 0) ∧
      ∃ t st : Nat → Option Nat,
        janet_core_table ([0, 1, 0, 2] : List Nat) = Except.ok t ∧
        janet_core_struct ([0, 1, 0, 2] : List Nat) = Except.ok st ∧
        ∀ k, t k = lastBinding (pairsOf [0, 1, 0, 2]) k ∧
             st k = lastBinding (pairsOf [0, 1, 0, 2]) k) :=
  ⟨⟨by decide, (table_struct_spec [0]).1 (by decide)⟩,
   ⟨by decide, (table_struct_spec [0, 1, 0, 2]).2 (by decide)⟩⟩

/-- C6 -/
theorem scan_spec (d : List Char) :
    (janet_scan_integer d = none → janet_core_scaninteger [.string d] = Except.ok Janet.nil) ∧
    (∀ n : Int, janet_scan_integer d = some n →
      janet_core_scaninteger [.string d] = Except.ok (Janet.int n)) ∧
    (janet_scan_real d = none → janet_core_scanreal [.string d] = Except.ok Janet.nil) ∧
    (∀ q : ℚ, janet_scan_real d = some q →
      janet_core_scanreal [.string d] = Except.ok (Janet.real q)) ∧
    janet_core_scannumber [.string d] = Except.ok (janet_scan_number d) ∧
    janet_core_scaninteger [.string ['4', '2']] = Except.ok (Janet.int 42) := by
  refine ⟨?_, ?_, ?_, ?_, rfl, rfl⟩
  · intro h; simp [janet_core_scaninteger, h]
  · intro n h; simp [janet_core_scaninteger, h]
  · intro h; simp [janet_core_scanreal, h]
  · intro q h; simp [janet_core_scanreal, h]

/-- C6 witness -/
theorem scan_spec_witness :
    (janet_scan_integer ['a'] = none ∧
      janet_core_scaninteger [.string ['a']] = Except.ok Janet.nil) ∧
    (janet_scan_integer ['4', '2'] = some 42 ∧
      janet_core_scaninteger [.string ['4', '2']] = Except.ok (Janet.int 42)) :=
  ⟨⟨rfl, (scan_spec ['a']).1 rfl⟩, ⟨rfl, (scan_spec ['4', '2']).2.1 42 rfl⟩⟩

/-- C7 -/
theorem native_spec {L F : Type} (pf : DynLoader L F) (name : String) :
    (pf.load_clib name = none → janet_native pf name = Except.error pf.error_clib) ∧
    (∀ lib, pf.load_clib name = some lib → pf.symbol_clib lib "_janet_init" = none →
      janet_native pf name = Except.error "could not find _janet_init symbol") ∧
    (∀ lib init, pf.load_clib name = some lib →
      pf.symbol_clib lib "_janet_init" = some init →
      janet_native pf name = Except.ok init) ∧
    (pf.error_clib ≠ "could not find _janet_init symbol" →
      (Except.error pf.error_clib : Except String F) ≠
        Except.error "could not find _janet_init symbol") ∧
    (∀ p, janet_core_native pf [.string p] = janet_native pf (String.mk p)) := by
  refine ⟨?_, ?_, ?_, ?_, fun p => rfl⟩
  · intro h; simp [janet_native, h]
  · intro lib h1 h2; simp [janet_native, h1, h2]
  · intro lib init h1 h2; simp [janet_native, h1, h2]
  · intro h hc
    exact h (Except.error.injEq _ _ ▸ hc)

/-- C7 witness -/
theorem native_spec_witness :
    (sampleLoader.load_clib "missing" = none ∧
      janet_native sampleLoader "missing" = Except.error sampleLoader.error_clib) ∧
    (sampleLoader.load_clib "nosym" = some 1 ∧
      sampleLoader.symbol_clib 1 "_janet_init" = none ∧
      janet_native sampleLoader "nosym" =
        Except.error "could not find _janet_init symbol") ∧
    (sampleLoader.load_clib "good" = some 0 ∧
      sampleLoader.symbol_clib 0 "_janet_init" = some 7 ∧
      janet_native sampleLoader "good" = Except.ok 7) ∧
    (sampleLoader.error_clib ≠ "could not find _janet_init symbol" ∧
      (Except.error sampleLoader.error_clib : Except String Nat) ≠
        Except.error "could not find _janet_init symbol") :=
  ⟨⟨by decide, (native_spec sampleLoader "missing").1 (by decide)⟩,
   ⟨by decide, by decide, (native_spec sampleLoader "nosym").2.1 1 (by decide) (by decide)⟩,
   ⟨by decide, by decide, (native_spec sampleLoader "good").2.2.1 0 7 (by decide) (by decide)⟩,
   ⟨by decide, (native_spec sampleLoader "anything").2.2.2.1 (by decide)⟩⟩

/-- C8 -/
theorem gcinterval_spec (st v : Int) :
    (v < 0 → janet_core_gcsetinterval st [.int v] =
      (Except.error "expected non-negative integer", st)) ∧
    (0 ≤ v → janet_core_gcsetinterval st [.int v] = (Except.ok Janet.nil, v) ∧
      janet_core_gcinterval v [] = Except.ok (Janet.int v)) := by
  constructor
  · intro h
    simp [janet_core_gcsetinterval, h]
  · intro h
    exact ⟨by simp [janet_core_gcsetinterval, show ¬ v < 0 from by omega], rfl⟩

/-- C8 witness -/
theorem gcinterval_spec_witness :
    ((-3 : Int) < 0 ∧ janet_core_gcsetinterval 7 [.int (-3)] =
      (Except.error "expected non-negative integer", 7)) ∧
    ((0 : Int) ≤ 42 ∧ janet_core_gcsetinterval 7 [.int 42] = (Except.ok Janet.nil, 42) ∧
      janet_core_gcinterval 42 [] = Except.ok (Janet.int 42)) :=
  ⟨⟨by decide, (gcinterval_spec 7 (-3)).1 (by decide)⟩,
   ⟨by decide, (gcinterval_spec 7 42).2 (by decide)⟩⟩

theorem lor_mul_pow_eq_add : ∀ (k x y : Nat), x < 2 ^ k →
    (x ||| y * 2 ^ k) = x + y * 2 ^ k := by
  intro k
  induction k with
  | zero =>
    intro x y h
    have hx : x = 0 := by omega
    subst hx
    simp
  | succ k ih =>
    intro x y h
    rw [← Nat.bit_testBit_zero_shiftRight_one x]
    have h2 : y * 2 ^ (k + 1) = Nat.bit false (y * 2 ^ k) := by
      simp [Nat.bit, Nat.pow_succ]
      ring
    rw [h2, Nat.lor_bit]
    have hm : x >>> 1 < 2 ^ k := by
      rw [Nat.shiftRight_one]
      have hp : 2 ^ (k + 1) = 2 * 2 ^ k := by ring
      omega
    rw [ih _ y hm]
    cases hb : x.testBit 0 <;> simp [Nat.bit] <;> ring

theorem lor_shift_add {k x : Nat} (y : Nat) (h : x < 2 ^ k) :
    (x ||| y <<< k) = x + y <<< k := by
  rw [Nat.shiftLeft_eq]
  exact lor_mul_pow_eq_add k x y h

/-- C9 -/
theorem encode_decode_roundtrip (op a b c : Nat) (i j : Int)
    (hop : op < 2 ^ 8) (ha : a < 2 ^ 8) (hb : b < 2 ^ 8) (hc : c < 2 ^ 8)
    (hi1 : -(2 ^ 7) ≤ i) (hi2 : i < 2 ^ 7)
    (hj1 : -(2 ^ 15) ≤ j) (hj2 : j < 2 ^ 15) :
    (decodeOp (SSS op a b c) = op ∧ decodeA (SSS op a b c) = a ∧
     decodeB (SSS op a b c) = b ∧ decodeC (SSS op a b c) = c) ∧
    (decodeOp (SS op a b) = op ∧ decodeA (SS op a b) = a ∧
     decodeB (SS op a b) = b) ∧
    (decodeOp (S op a) = op ∧ decodeA (S op a) = a) ∧
    (decodeOp (SSI op a b i) = op ∧ decodeA (SSI op a b i) = a ∧
     decodeB (SSI op a b i) = b ∧ decodeImm8 (SSI op a b i) = i) ∧
    (decodeOp (SI op a j) = op ∧ decodeA (SI op a j) = a ∧
     decodeImm16 (SI op a j) = j) := by
  have sh8 : a <<< 8 = a * 2 ^ 8 := Nat.shiftLeft_eq a 8
  have e1 : SSS op a b c = op + a * 2 ^ 8 + b * 2 ^ 16 + c * 2 ^ 24 := by
    unfold SSS
    rw [lor_shift_add a hop, Nat.shiftLeft_eq a 8,
        lor_shift_add b (by omega), Nat.shiftLeft_eq b 16,
        lor_shift_add c (by omega), Nat.shiftLeft_eq c 24,
        Nat.mod_eq_of_lt (by omega)]
  have e2 : SS op a b = op + a * 2 ^ 8 + b * 2 ^ 16 := by
    unfold SS
    rw [lor_shift_add a hop, Nat.shiftLeft_eq a 8,
        lor_shift_add b (by omega), Nat.shiftLeft_eq b 16,
        Nat.mod_eq_of_lt (by omega)]
  have e3 : S op a = op + a * 2 ^ 8 := by
    unfold S
    rw [lor_shift_add a hop, Nat.shiftLeft_eq a 8, Nat.mod_eq_of_lt (by omega)]
  have hm8 : (toU32 i <<< 24) % 2 ^ 32 = toU32 i % 2 ^ 8 * 2 ^ 24 := by
    rw [Nat.shiftLeft_eq]
    omega
  have e4 : SSI op a b i = op + a * 2 ^ 8 + b * 2 ^ 16 + toU32 i % 2 ^ 8 * 2 ^ 24 := by
    unfold SSI
    rw [lor_shift_add a hop, Nat.shiftLeft_eq a 8,
        lor_shift_add b (by omega), Nat.shiftLeft_eq b 16, hm8]
    rw [lor_mul_pow_eq_add 24 _ (toU32 i % 2 ^ 8) (by omega),
        Nat.mod_eq_of_lt (by omega)]
  have hm16 : (toU32 j <<< 16) % 2 ^ 32 = toU32 j % 2 ^ 16 * 2 ^ 16 := by
    rw [Nat.shiftLeft_eq]
    omega
  have e5 : SI op a j = op + a * 2 ^ 8 + toU32 j % 2 ^ 16 * 2 ^ 16 := by
    unfold SI
    rw [lor_shift_add a hop, Nat.shiftLeft_eq a 8, hm16,
        lor_mul_pow_eq_add 16 _ (toU32 j % 2 ^ 16) (by omega),
        Nat.mod_eq_of_lt (by omega)]
  refine ⟨⟨?_, ?_, ?_, ?_⟩, ⟨?_, ?_, ?_⟩, ⟨?_, ?_⟩, ⟨?_, ?_, ?_, ?_⟩, ⟨?_, ?_, ?_⟩⟩
  · rw [e1]; unfold decodeOp; omega
  · rw [e1]; unfold decodeA; rw [Nat.shiftRight_eq_div_pow]; omega
  · rw [e1]; unfold decodeB; rw [Nat.shiftRight_eq_div_pow]; omega
  · rw [e1]; unfold decodeC; rw [Nat.shiftRight_eq_div_pow]; omega
  · rw [e2]; unfold decodeOp; omega
  · rw [e2]; unfold decodeA; rw [Nat.shiftRight_eq_div_pow]; omega
  · rw [e2]; unfold decodeB; rw [Nat.shiftRight_eq_div_pow]; omega
  · rw [e3]; unfold decodeOp; omega
  · rw [e3]; unfold decodeA; rw [Nat.shiftRight_eq_div_pow]; omega
  · rw [e4]; unfold decodeOp; omega
  · rw [e4]; unfold decodeA; rw [Nat.shiftRight_eq_div_pow]; omega
  · rw [e4]; unfold decodeB; rw [Nat.shiftRight_eq_div_pow]; omega
  · rw [e4]; unfold decodeImm8 asSigned8 decodeC toU32
    rw [Nat.shiftRight_eq_div_pow]
    split <;> omega
  · rw [e5]; unfold decodeOp; omega
  · rw [e5]; unfold decodeA; rw [Nat.shiftRight_eq_div_pow]; omega
  · rw [e5]; unfold decodeImm16 asSigned16 toU32
    rw [Nat.shiftRight_eq_div_pow]
    split <;> omega

/-- C9 witness -/
theorem encode_decode_roundtrip_witness :
    ((3 : Nat) < 2 ^ 8 ∧ (10 : Nat) < 2 ^ 8 ∧ (20 : Nat) < 2 ^ 8 ∧ (30 : Nat) < 2 ^ 8 ∧
      -(2 ^ 7) ≤ (-5 : Int) ∧ (-5 : Int) < 2 ^ 7 ∧
      -(2 ^ 15) ≤ (-300 : Int) ∧ (-300 : Int) < 2 ^ 15) ∧
    ((decodeOp (SSS 3 10 20 30) = 3 ∧ decodeA (SSS 3 10 20 30) = 10 ∧
      decodeB (SSS 3 10 20 30) = 20 ∧ decodeC (SSS 3 10 20 30) = 30) ∧
     (decodeOp (SS 3 10 20) = 3 ∧ decodeA (SS 3 10 20) = 10 ∧
      decodeB (SS 3 10 20) = 20) ∧
     (decodeOp (S 3 10) = 3 ∧ decodeA (S 3 10) = 10) ∧
     (decodeOp (SSI 3 10 20 (-5)) = 3 ∧ decodeA (SSI 3 10 20 (-5)) = 10 ∧
      decodeB (SSI 3 10 20 (-5)) = 20 ∧ decodeImm8 (SSI 3 10 20 (-5)) = -5) ∧
     (decodeOp (SI 3 10 (-300)) = 3 ∧ decodeA (SI 3 10 (-300)) = 10 ∧
      decodeImm16 (SI 3 10 (-300)) = -300)) :=
  ⟨by norm_num,
   encode_decode_roundtrip 3 10 20 30 (-5) (-300) (by norm_num) (by norm_num)
     (by norm_num) (by norm_num) (by norm_num) (by norm_num) (by norm_num) (by norm_num)⟩
